import Mathlib

/-!
Shallow embedding of `src/make-pngs.py`, a batch converter that invokes the
Aseprite CLI once per `.ase` file of a directory and classifies each outcome.

The filesystem and the external process are modelled as an environment: a
`DirState` records whether the given path exists and is a directory, and, for
each discovered `.ase` file, a `RunOutcome` describing what the
`subprocess.run` call did (returned with exit code zero together with whether
the destination file exists on disk afterwards, raised
`subprocess.CalledProcessError`, raised `FileNotFoundError`, or raised some
other exception).  The functions `processFile`, `runLoop` and
`convert_ase_to_png` are direct translations of the per-iteration
classification, the `for` loop, and the whole function of the source;
`main_exit` translates `main`'s exit-code choice.
-/

set_option autoImplicit false

namespace MakePngs

/-- The source format extension `.ase` (glob pattern `*.ase`). -/
def aseExt : List Char := ['.', 'a', 's', 'e']

/-- The target format extension `.png` (argument of `with_suffix`). -/
def pngExt : List Char := ['.', 'p', 'n', 'g']

/-- Index of the last occurrence of `.` in a file name, if any: Python's
`name.rfind(".")` restricted to the found case, as `pathlib` uses it. -/
def rfindDot : List Char → Option Nat
  | [] => none
  | c :: rest =>
    match rfindDot rest with
    | some i => some (i + 1)
    | none => if c = '.' then some 0 else none

/-- Python `PurePath.with_suffix` acting on the final path component: the old
suffix is `name[i:]` for `i = name.rfind(".")` when `0 < i < len(name) - 1`
and empty otherwise; `with_suffix` drops the old suffix (if any) and appends
the new one. -/
def withSuffixName (name suffix : List Char) : List Char :=
  match rfindDot name with
  | some i => if 0 < i ∧ i < name.length - 1 then name.take i ++ suffix else name ++ suffix
  | none => name ++ suffix

/-- A `pathlib.Path`: a parent directory together with a final component. -/
structure PyPath where
  parent : List String
  name : List Char
deriving DecidableEq, Repr

/-- `Path.with_suffix` keeps the parent and rewrites the final component. -/
def withSuffix (p : PyPath) (suffix : List Char) : PyPath :=
  ⟨p.parent, withSuffixName p.name suffix⟩

/-- What the `subprocess.run(cmd, capture_output=True, text=True, check=True)`
call did for one file.  `completed destExists` is the normal return (exit code
zero, `check=True` raised nothing), bundled with whether `png_file.exists()`
holds on disk afterwards; the remaining constructors are the exceptions the
source handles, in the order of its `except` clauses. -/
inductive RunOutcome where
  | completed (destExists : Bool)
  | calledProcessError (returncode : Int) (stderr : String)
  | fileNotFoundError
  | otherError (msg : String)
deriving DecidableEq, Repr

/-- One discovered `.ase` file: its final component and how invoking the
external tool on it turns out. -/
structure FileJob where
  name : List Char
  outcome : RunOutcome
deriving DecidableEq, Repr

/-- The environment of one call of `convert_ase_to_png`: the two precondition
checks, the directory path, and the discovered `.ase` files in the order the
glob yields them. -/
structure DirState where
  pathExists : Bool
  isDir : Bool
  dirPath : List String
  aseFiles : List FileJob
deriving DecidableEq, Repr

/-- The two counters local to `convert_ase_to_png`, `success_count` and
`error_count` (Python integers, modelled as `Int`). -/
structure LoopState where
  success_count : Int
  error_count : Int
deriving DecidableEq, Repr

/-- Effect of one loop iteration on the counters: either the next counter
state, or the `FileNotFoundError` branch's immediate `return False`. -/
inductive StepResult where
  | next (st : LoopState)
  | abort
deriving DecidableEq, Repr

/-- One iteration's classification (lines 77-111 of the source): exit code
zero and destination present increments `success_count`; exit code zero with
the destination missing, `CalledProcessError`, and any unexpected exception
increment `error_count`; `FileNotFoundError` aborts the whole call. -/
def processFile (st : LoopState) (f : FileJob) : StepResult :=
  match f.outcome with
  | .completed destExists =>
    if destExists then .next { st with success_count := st.success_count + 1 }
    else .next { st with error_count := st.error_count + 1 }
  | .calledProcessError _ _ => .next { st with error_count := st.error_count + 1 }
  | .fileNotFoundError => .abort
  | .otherError _ => .next { st with error_count := st.error_count + 1 }

/-- Counter state after processing a list of files from `st`, or `none` when a
`FileNotFoundError` aborts within the list. -/
def runStates (st : LoopState) : List FileJob → Option LoopState
  | [] => some st
  | f :: rest =>
    match processFile st f with
    | .next st1 => runStates st1 rest
    | .abort => none

/-- One human-readable line printed to standard output. -/
inductive Diag where
  | dirNotExist
  | notADirectory
  | noAseFiles
  | foundFiles (n : Nat)
  | converting (src dest : List Char)
  | convertedOk (src : List Char)
  | failedToCreate (dest : List Char)
  | commandFailed (src : List Char) (returncode : Int) (stderr : String)
  | asepriteNotFound
  | unexpected (src : List Char) (msg : String)
  | conversionComplete
  | summarySuccess (n : Int)
  | summaryFailed (n : Int)
deriving DecidableEq, Repr

/-- The lines one loop iteration prints: the `Converting: src -> dest` line,
then the line of whichever branch classifies the outcome. -/
def stepDiags (f : FileJob) : List Diag :=
  let dest := withSuffixName f.name pngExt
  Diag.converting f.name dest ::
    match f.outcome with
    | .completed true => [Diag.convertedOk f.name]
    | .completed false => [Diag.failedToCreate dest]
    | .calledProcessError c e => [Diag.commandFailed f.name c e]
    | .fileNotFoundError => [Diag.asepriteNotFound]
    | .otherError m => [Diag.unexpected f.name m]

/-- The summary block (lines 113-117): `Conversion complete!`, the success
count, and the failure count only when it is positive. -/
def summaryDiags (st : LoopState) : List Diag :=
  Diag.conversionComplete :: Diag.summarySuccess st.success_count ::
    (if 0 < st.error_count then [Diag.summaryFailed st.error_count] else [])

/-- Observable behaviour of one `convert_ase_to_png` call: the returned
boolean, the `(source, destination)` path pairs the external tool was invoked
on (in order), the final counters, whether the `FileNotFoundError` branch
returned early, whether the summary block ran, and the printed lines. -/
structure ConvResult where
  returnValue : Bool
  invoked : List (PyPath × PyPath)
  succeeded : Int
  failed : Int
  fatalAbort : Bool
  summaryPrinted : Bool
  output : List Diag
deriving DecidableEq, Repr

/-- The source and destination paths of one iteration: `ase_file` lives in the
scanned directory and `png_file = ase_file.with_suffix(".png")`. -/
def jobPair (dir : List String) (f : FileJob) : PyPath × PyPath :=
  (⟨dir, f.name⟩, withSuffix ⟨dir, f.name⟩ pngExt)

/-- The `for ase_file in ase_files` loop (lines 64-119), from counter state
`st`: on exhaustion it prints the summary and returns `error_count == 0`; a
`FileNotFoundError` returns `False` at once, skipping the rest and the
summary. -/
def runLoop (dir : List String) (st : LoopState) : List FileJob → ConvResult
  | [] =>
    { returnValue := st.error_count == 0
      invoked := []
      succeeded := st.success_count
      failed := st.error_count
      fatalAbort := false
      summaryPrinted := true
      output := summaryDiags st }
  | f :: rest =>
    match processFile st f with
    | .next st1 =>
      let r := runLoop dir st1 rest
      { r with invoked := jobPair dir f :: r.invoked
               output := stepDiags f ++ r.output }
    | .abort =>
      { returnValue := false
        invoked := [jobPair dir f]
        succeeded := st.success_count
        failed := st.error_count
        fatalAbort := true
        summaryPrinted := false
        output := stepDiags f }

/-- `convert_ase_to_png` (lines 32-119): the two precondition checks, the
empty-glob early `return True`, then the loop from zeroed counters. -/
def convert_ase_to_png (st : DirState) : ConvResult :=
  if st.pathExists = false then
    { returnValue := false, invoked := [], succeeded := 0, failed := 0,
      fatalAbort := false, summaryPrinted := false, output := [Diag.dirNotExist] }
  else if st.isDir = false then
    { returnValue := false, invoked := [], succeeded := 0, failed := 0,
      fatalAbort := false, summaryPrinted := false, output := [Diag.notADirectory] }
  else if st.aseFiles.isEmpty then
    { returnValue := true, invoked := [], succeeded := 0, failed := 0,
      fatalAbort := false, summaryPrinted := false, output := [Diag.noAseFiles] }
  else
    let r := runLoop st.dirPath ⟨0, 0⟩ st.aseFiles
    { r with output := Diag.foundFiles st.aseFiles.length :: r.output }

/-- `main` (lines 13-30): exit code 0 when `convert_ase_to_png` returned
`True`, exit code 1 otherwise. -/
def main_exit (st : DirState) : Nat :=
  if (convert_ase_to_png st).returnValue then 0 else 1

/-- Filesystem fact about the destination check: the destination exists after
the call exactly when it existed before or the tool wrote it (the tool never
deletes files). -/
def destExistsAfter (before toolWrote : Bool) : Bool := before || toolWrote

/-! ## Helper lemmas about the loop -/

theorem runStates_append (pre rest : List FileJob) (st s : LoopState)
    (h : runStates st pre = some s) :
    runStates st (pre ++ rest) = runStates s rest := by
  induction pre generalizing st with
  | nil =>
    simp only [runStates] at h
    cases h
    simp
  | cons f pre ih =>
    cases hp : processFile st f with
    | next st1 =>
      simp only [List.cons_append, runStates, hp] at h ⊢
      exact ih st1 h
    | abort =>
      simp only [runStates, hp] at h
      exact Option.noConfusion h

theorem runLoop_append (dir : List String) (pre rest : List FileJob) (st s : LoopState)
    (h : runStates st pre = some s) :
    runLoop dir st (pre ++ rest) =
      { runLoop dir s rest with
          invoked := pre.map (jobPair dir) ++ (runLoop dir s rest).invoked
          output := (pre.map stepDiags).flatten ++ (runLoop dir s rest).output } := by
  induction pre generalizing st with
  | nil =>
    simp only [runStates] at h
    cases h
    simp
  | cons f pre ih =>
    cases hp : processFile st f with
    | next st1 =>
      simp only [runStates, hp] at h
      have hih := ih st1 h
      simp only [List.cons_append, runLoop, hp, List.append_eq] at hih ⊢
      rw [hih]
      simp [List.append_assoc]
    | abort =>
      simp only [runStates, hp] at h
      exact Option.noConfusion h

theorem runStates_counts (jobs : List FileJob) (st s : LoopState)
    (h : runStates st jobs = some s) :
    st.success_count ≤ s.success_count ∧ st.error_count ≤ s.error_count ∧
      s.success_count + s.error_count = st.success_count + st.error_count + jobs.length := by
  induction jobs generalizing st with
  | nil =>
    simp only [runStates] at h
    cases h
    simp
  | cons f jobs ih =>
    rcases f with ⟨n, o⟩
    cases o with
    | completed destExists =>
      cases destExists with
      | true =>
        simp only [runStates, processFile] at h
        have := ih _ h
        simp only [List.length_cons] at *
        push_cast at *
        omega
      | false =>
        simp only [runStates, processFile] at h
        have := ih _ h
        simp only [List.length_cons] at *
        push_cast at *
        omega
    | calledProcessError c e =>
      simp only [runStates, processFile] at h
      have := ih _ h
      simp only [List.length_cons] at *
      push_cast at *
      omega
    | fileNotFoundError => simp [runStates, processFile] at h
    | otherError m =>
      simp only [runStates, processFile] at h
      have := ih _ h
      simp only [List.length_cons] at *
      push_cast at *
      omega

theorem runLoop_returnValue_eq (dir : List String) (jobs : List FileJob) (st : LoopState) :
    (runLoop dir st jobs).returnValue =
      ((runLoop dir st jobs).failed == 0 && !(runLoop dir st jobs).fatalAbort) := by
  induction jobs generalizing st with
  | nil => simp [runLoop]
  | cons f jobs ih =>
    cases hp : processFile st f with
    | next st1 => simpa [runLoop, hp] using ih st1
    | abort => simp [runLoop, hp]

theorem runLoop_summary_eq (dir : List String) (jobs : List FileJob) (st : LoopState) :
    (runLoop dir st jobs).summaryPrinted = !(runLoop dir st jobs).fatalAbort := by
  induction jobs generalizing st with
  | nil => simp [runLoop]
  | cons f jobs ih =>
    cases hp : processFile st f with
    | next st1 => simpa [runLoop, hp] using ih st1
    | abort => simp [runLoop, hp]

theorem runStates_allSuccess (pre : List FileJob) (st : LoopState)
    (h : ∀ f ∈ pre, f.outcome = RunOutcome.completed true) :
    runStates st pre = some ⟨st.success_count + pre.length, st.error_count⟩ := by
  induction pre generalizing st with
  | nil => simp [runStates]
  | cons f pre ih =>
    have hf : f.outcome = RunOutcome.completed true := h f (by simp)
    have hih := ih { st with success_count := st.success_count + 1 }
      (fun g hg => h g (by simp [hg]))
    simp only [runStates, processFile, hf, if_true]
    rw [hih]
    simp only [Option.some.injEq, LoopState.mk.injEq, List.length_cons]
    refine ⟨?_, by trivial⟩
    push_cast
    omega

theorem runLoop_allSuccess (dir : List String) (jobs : List FileJob) (st : LoopState)
    (h : ∀ f ∈ jobs, f.outcome = RunOutcome.completed true) :
    (runLoop dir st jobs).returnValue = (st.error_count == 0) ∧
    (runLoop dir st jobs).succeeded = st.success_count + jobs.length ∧
    (runLoop dir st jobs).failed = st.error_count ∧
    (runLoop dir st jobs).fatalAbort = false ∧
    (runLoop dir st jobs).invoked = jobs.map (jobPair dir) := by
  induction jobs generalizing st with
  | nil => simp [runLoop]
  | cons f jobs ih =>
    have hf : f.outcome = RunOutcome.completed true := h f (by simp)
    have ih1 := ih { st with success_count := st.success_count + 1 }
      (fun g hg => h g (by simp [hg]))
    simp only [runLoop, processFile, hf, if_true]
    simp only [List.length_cons, List.map_cons] at *
    refine ⟨ih1.1, ?_, ih1.2.2.1, ih1.2.2.2.1, by simp [ih1.2.2.2.2]⟩
    rw [ih1.2.1]
    push_cast
    omega

theorem runLoop_invoked_mem (dir : List String) (jobs : List FileJob) (st : LoopState)
    (p : PyPath × PyPath) (hp : p ∈ (runLoop dir st jobs).invoked) :
    ∃ f ∈ jobs, p = jobPair dir f := by
  induction jobs generalizing st with
  | nil => simp [runLoop] at hp
  | cons f jobs ih =>
    cases hq : processFile st f with
    | next st1 =>
      simp only [runLoop, hq, List.mem_cons] at hp
      rcases hp with h | h
      · exact ⟨f, by simp, h⟩
      · obtain ⟨g, hg, hgp⟩ := ih st1 h
        exact ⟨g, by simp [hg], hgp⟩
    | abort =>
      simp only [runLoop, hq, List.mem_singleton] at hp
      exact ⟨f, by simp, hp⟩

/-! ## Helper lemmas about destination names -/

theorem rfindDot_append (xs ys : List Char) (j : Nat) (h : rfindDot ys = some j) :
    rfindDot (xs ++ ys) = some (xs.length + j) := by
  induction xs with
  | nil => simpa using h
  | cons c xs ih =>
    simp only [List.cons_append, rfindDot, List.append_eq, ih, List.length_cons,
      Option.some.injEq]
    omega

theorem take_len_append {α : Type} (xs ys : List α) : (xs ++ ys).take xs.length = xs := by
  induction xs with
  | nil => simp
  | cons a xs ih => simp [ih]

theorem withSuffixName_ase (stem : List Char) (hs : stem ≠ []) :
    withSuffixName (stem ++ aseExt) pngExt = stem ++ pngExt := by
  have hdot : rfindDot aseExt = some 0 := by decide
  have h := rfindDot_append stem aseExt 0 hdot
  simp only [Nat.add_zero] at h
  have hpos : 0 < stem.length := List.length_pos.mpr hs
  have hlen : (stem ++ aseExt).length = stem.length + 4 := by simp [aseExt]
  simp only [withSuffixName, h]
  rw [if_pos (by omega)]
  rw [take_len_append]

theorem convert_eq_runLoop (st : DirState) (hE : st.pathExists = true)
    (hD : st.isDir = true) (hne : st.aseFiles.isEmpty = false) :
    convert_ase_to_png st =
      { runLoop st.dirPath ⟨0, 0⟩ st.aseFiles with
          output := Diag.foundFiles st.aseFiles.length ::
            (runLoop st.dirPath ⟨0, 0⟩ st.aseFiles).output } := by
  unfold convert_ase_to_png
  rw [hE, hD, hne]
  simp

/-! ## Concrete runs used by the witnesses -/

/-- A file the tool converts: exit code zero, destination present. -/
def exA : FileJob := ⟨['a', '.', 'a', 's', 'e'], RunOutcome.completed true⟩

/-- A file whose invocation exits with code 2. -/
def exB : FileJob := ⟨['b', '.', 'a', 's', 'e'], RunOutcome.calledProcessError 2 "err"⟩

/-- Another file the tool converts. -/
def exC : FileJob := ⟨['c', '.', 'a', 's', 'e'], RunOutcome.completed true⟩

/-- A file whose invocation raises `FileNotFoundError`. -/
def exAbort : FileJob := ⟨['d', '.', 'a', 's', 'e'], RunOutcome.fileNotFoundError⟩

/-- A directory with one convertible file. -/
def c9run : DirState := ⟨true, true, ["assets"], [exA]⟩

/-- A directory with three files, the middle one failing with exit code 2. -/
def c3run : DirState := ⟨true, true, ["assets"], [exA, exB, exC]⟩

/-- A directory whose second file hits the missing executable. -/
def c4run : DirState := ⟨true, true, ["assets"], [exA, exAbort, exC]⟩

/-- A path that exists neither as a file nor as a directory. -/
def noDir : DirState := ⟨false, false, ["assets"], []⟩

/-- An existing directory with no `.ase` files. -/
def emptyDir : DirState := ⟨true, true, ["assets"], []⟩

/-- A directory whose single file hits the missing executable. -/
def abortRun : DirState := ⟨true, true, ["assets"], [exAbort]⟩

/-! ## The claims -/

/-- Claim C1: for every path that exists and is a directory,
`convert_ase_to_png` returns overall success exactly when the per-file failed
count is zero and no fatal missing-executable abort occurred, and `main` exits
with code 0 on overall success (the zero-files case included) and code 1
otherwise. -/
theorem claim_C1 (st : DirState) (hE : st.pathExists = true) (hD : st.isDir = true) :
    (convert_ase_to_png st).returnValue =
      ((convert_ase_to_png st).failed == 0 && !(convert_ase_to_png st).fatalAbort) ∧
    (main_exit st = 0 ↔ (convert_ase_to_png st).returnValue = true) ∧
    (main_exit st = 1 ↔ (convert_ase_to_png st).returnValue = false) := by
  refine ⟨?_, ?_, ?_⟩
  · cases hne : st.aseFiles.isEmpty with
    | true => simp [convert_ase_to_png, hE, hD, hne]
    | false =>
      rw [convert_eq_runLoop st hE hD hne]
      simpa using runLoop_returnValue_eq st.dirPath st.aseFiles ⟨0, 0⟩
  · unfold main_exit
    cases hrv : (convert_ase_to_png st).returnValue <;> simp [hrv]
  · unfold main_exit
    cases hrv : (convert_ase_to_png st).returnValue <;> simp [hrv]

theorem claim_C1_witness :
    c9run.pathExists = true ∧ c9run.isDir = true ∧
    ((convert_ase_to_png c9run).returnValue =
        ((convert_ase_to_png c9run).failed == 0 && !(convert_ase_to_png c9run).fatalAbort) ∧
      (main_exit c9run = 0 ↔ (convert_ase_to_png c9run).returnValue = true) ∧
      (main_exit c9run = 1 ↔ (convert_ase_to_png c9run).returnValue = false)) :=
  ⟨rfl, rfl, claim_C1 c9run rfl rfl⟩

/-- Claim C2: within the loop, a zero-exit invocation is classified by the
destination's existence afterwards: destination present increments the
succeeded count, destination missing increments the failed count (never the
succeeded count), and the missing-destination branch prints a diagnostic
naming the missing destination. -/
theorem claim_C2 (st0 s : LoopState) (pre : List FileJob) (n : List Char) (b : Bool)
    (h : runStates st0 pre = some s) :
    runStates st0 (pre ++ [⟨n, RunOutcome.completed b⟩]) =
      some (if b then { s with success_count := s.success_count + 1 }
            else { s with error_count := s.error_count + 1 }) ∧
    (b = false →
      Diag.failedToCreate (withSuffixName n pngExt) ∈
        stepDiags ⟨n, RunOutcome.completed b⟩) := by
  constructor
  · rw [runStates_append pre _ st0 s h]
    cases b <;> simp [runStates, processFile]
  · rintro rfl
    simp [stepDiags]

theorem claim_C2_witness :
    runStates ⟨0, 0⟩ [] = some ⟨0, 0⟩ ∧
    runStates (⟨0, 0⟩ : LoopState)
        ([] ++ [⟨['b', '.', 'a', 's', 'e'], RunOutcome.completed false⟩]) = some ⟨0, 1⟩ ∧
    Diag.failedToCreate (withSuffixName ['b', '.', 'a', 's', 'e'] pngExt) ∈
      stepDiags ⟨['b', '.', 'a', 's', 'e'], RunOutcome.completed false⟩ := by
  refine ⟨rfl, ?_, ?_⟩
  · simpa using (claim_C2 ⟨0, 0⟩ ⟨0, 0⟩ [] ['b', '.', 'a', 's', 'e'] false rfl).1
  · exact (claim_C2 ⟨0, 0⟩ ⟨0, 0⟩ [] ['b', '.', 'a', 's', 'e'] false rfl).2 rfl

/-- Claim C5: for every path that does not exist, or exists but is not a
directory, `convert_ase_to_png` returns failure with the external tool never
invoked and no file touched. -/
theorem claim_C5 (st : DirState) (h : st.pathExists = false ∨ st.isDir = false) :
    (convert_ase_to_png st).returnValue = false ∧
    (convert_ase_to_png st).invoked = [] := by
  rcases h with h | h
  · simp [convert_ase_to_png, h]
  · by_cases hE : st.pathExists = false
    · simp [convert_ase_to_png, hE]
    · simp [convert_ase_to_png, hE, h]

theorem claim_C5_witness :
    (noDir.pathExists = false ∨ noDir.isDir = false) ∧
    ((convert_ase_to_png noDir).returnValue = false ∧
      (convert_ase_to_png noDir).invoked = []) :=
  ⟨Or.inl rfl, claim_C5 noDir (Or.inl rfl)⟩

/-- Claim C6: for every existing directory with zero `.ase` files,
`convert_ase_to_png` returns success with zero succeeded, zero failed, and the
external tool never invoked. -/
theorem claim_C6 (st : DirState) (hE : st.pathExists = true) (hD : st.isDir = true)
    (hempty : st.aseFiles = []) :
    (convert_ase_to_png st).returnValue = true ∧
    (convert_ase_to_png st).invoked = [] ∧
    (convert_ase_to_png st).succeeded = 0 ∧
    (convert_ase_to_png st).failed = 0 := by
  simp [convert_ase_to_png, hE, hD, hempty]

theorem claim_C6_witness :
    emptyDir.pathExists = true ∧ emptyDir.isDir = true ∧ emptyDir.aseFiles = [] ∧
    ((convert_ase_to_png emptyDir).returnValue = true ∧
      (convert_ase_to_png emptyDir).invoked = [] ∧
      (convert_ase_to_png emptyDir).succeeded = 0 ∧
      (convert_ase_to_png emptyDir).failed = 0) :=
  ⟨rfl, rfl, rfl, claim_C6 emptyDir rfl rfl rfl⟩

/-- Claim C10: when the destination file already exists before the invocation,
a zero-exit call is counted as succeeded even when the tool wrote nothing: the
classification inspects only the destination's existence after the call. -/
theorem claim_C10 (st0 s : LoopState) (pre : List FileJob) (n : List Char)
    (before wrote : Bool) (hb : before = true)
    (h : runStates st0 pre = some s) :
    runStates st0 (pre ++ [⟨n, RunOutcome.completed (destExistsAfter before wrote)⟩]) =
      some { s with success_count := s.success_count + 1 } := by
  rw [runStates_append pre _ st0 s h]
  subst hb
  simp [runStates, processFile, destExistsAfter]

theorem claim_C10_witness :
    (true : Bool) = true ∧
    runStates ⟨0, 0⟩ [] = some ⟨0, 0⟩ ∧
    runStates (⟨0, 0⟩ : LoopState)
        ([] ++ [⟨['a', '.', 'a', 's', 'e'], RunOutcome.completed (destExistsAfter true false)⟩])
      = some ⟨1, 0⟩ := by
  refine ⟨rfl, rfl, ?_⟩
  simpa using claim_C10 ⟨0, 0⟩ ⟨0, 0⟩ [] ['a', '.', 'a', 's', 'e'] true false rfl rfl

/-- Claim C3: in a batch where exactly one invocation exits non-zero and every
other file converts, the summary has failed = 1 and succeeded = N - 1, the
overall result is failure, and every file of the batch is still attempted
(the loop is not short-circuited by one per-file failure). -/
theorem claim_C3 (st : DirState) (pre post : List FileJob) (bad : FileJob)
    (code : Int) (errtext : String)
    (hE : st.pathExists = true) (hD : st.isDir = true)
    (hjobs : st.aseFiles = pre ++ bad :: post)
    (hbad : bad.outcome = RunOutcome.calledProcessError code errtext)
    (hpre : ∀ f ∈ pre, f.outcome = RunOutcome.completed true)
    (hpost : ∀ f ∈ post, f.outcome = RunOutcome.completed true) :
    (convert_ase_to_png st).failed = 1 ∧
    (convert_ase_to_png st).succeeded = (st.aseFiles.length : Int) - 1 ∧
    (convert_ase_to_png st).returnValue = false ∧
    (convert_ase_to_png st).invoked = st.aseFiles.map (jobPair st.dirPath) := by
  have hne : st.aseFiles.isEmpty = false := by rw [hjobs]; cases pre <;> rfl
  have hconv := convert_eq_runLoop st hE hD hne
  rw [hjobs] at hconv
  have hpre0 : runStates ⟨0, 0⟩ pre = some ⟨(pre.length : Int), 0⟩ := by
    simpa using runStates_allSuccess pre ⟨0, 0⟩ hpre
  have happ := runLoop_append st.dirPath pre (bad :: post) ⟨0, 0⟩ ⟨(pre.length : Int), 0⟩ hpre0
  have hstep : processFile ⟨(pre.length : Int), 0⟩ bad =
      StepResult.next ⟨(pre.length : Int), 1⟩ := by
    simp [processFile, hbad]
  have hcons : runLoop st.dirPath ⟨(pre.length : Int), 0⟩ (bad :: post) =
      { runLoop st.dirPath ⟨(pre.length : Int), 1⟩ post with
          invoked := jobPair st.dirPath bad ::
            (runLoop st.dirPath ⟨(pre.length : Int), 1⟩ post).invoked
          output := stepDiags bad ++
            (runLoop st.dirPath ⟨(pre.length : Int), 1⟩ post).output } := by
    simp [runLoop, hstep]
  obtain ⟨hrv, hsc, hfl, hab, hinv⟩ :=
    runLoop_allSuccess st.dirPath post ⟨(pre.length : Int), 1⟩ hpost
  rw [happ, hcons] at hconv
  refine ⟨?_, ?_, ?_, ?_⟩
  · rw [hconv]
    simpa using hfl
  · rw [hconv, hjobs]
    have hs1 : (runLoop st.dirPath ⟨(pre.length : Int), 1⟩ post).succeeded
        = (pre.length : Int) + post.length := by simpa using hsc
    simp only [hs1, List.length_append, List.length_cons]
    push_cast
    omega
  · rw [hconv]
    simpa using hrv
  · rw [hconv, hjobs]
    simp [hinv, List.map_append]

theorem claim_C3_witness :
    c3run.pathExists = true ∧ c3run.isDir = true ∧
    c3run.aseFiles = [exA] ++ exB :: [exC] ∧
    exB.outcome = RunOutcome.calledProcessError 2 "err" ∧
    ((convert_ase_to_png c3run).failed = 1 ∧
      (convert_ase_to_png c3run).succeeded = (c3run.aseFiles.length : Int) - 1 ∧
      (convert_ase_to_png c3run).returnValue = false ∧
      (convert_ase_to_png c3run).invoked = c3run.aseFiles.map (jobPair c3run.dirPath)) :=
  ⟨rfl, rfl, rfl, rfl,
    claim_C3 c3run [exA] [exC] exB 2 "err" rfl rfl rfl rfl (by decide) (by decide)⟩

/-- Claim C4: when the external executable cannot be located at some file of
the batch, the whole call aborts there: the overall result is failure, the
abort flag is set, and the invoked files are exactly those up to and
including the file at the point of detection, no matter how many earlier
files succeeded. -/
theorem claim_C4 (st : DirState) (pre post : List FileJob) (bad : FileJob) (s : LoopState)
    (hE : st.pathExists = true) (hD : st.isDir = true)
    (hjobs : st.aseFiles = pre ++ bad :: post)
    (hbad : bad.outcome = RunOutcome.fileNotFoundError)
    (hpre : runStates ⟨0, 0⟩ pre = some s) :
    (convert_ase_to_png st).returnValue = false ∧
    (convert_ase_to_png st).fatalAbort = true ∧
    (convert_ase_to_png st).invoked = (pre ++ [bad]).map (jobPair st.dirPath) := by
  have hne : st.aseFiles.isEmpty = false := by rw [hjobs]; cases pre <;> rfl
  have hconv := convert_eq_runLoop st hE hD hne
  rw [hjobs] at hconv
  have happ := runLoop_append st.dirPath pre (bad :: post) ⟨0, 0⟩ s hpre
  have habort : processFile s bad = StepResult.abort := by simp [processFile, hbad]
  have hcons : runLoop st.dirPath s (bad :: post) =
      { returnValue := false
        invoked := [jobPair st.dirPath bad]
        succeeded := s.success_count
        failed := s.error_count
        fatalAbort := true
        summaryPrinted := false
        output := stepDiags bad } := by
    simp [runLoop, habort]
  rw [happ, hcons] at hconv
  rw [hconv]
  refine ⟨by simp, by simp, by simp [List.map_append]⟩

theorem claim_C4_witness :
    c4run.pathExists = true ∧ c4run.isDir = true ∧
    c4run.aseFiles = [exA] ++ exAbort :: [exC] ∧
    exAbort.outcome = RunOutcome.fileNotFoundError ∧
    runStates ⟨0, 0⟩ [exA] = some ⟨1, 0⟩ ∧
    ((convert_ase_to_png c4run).returnValue = false ∧
      (convert_ase_to_png c4run).fatalAbort = true ∧
      (convert_ase_to_png c4run).invoked = ([exA] ++ [exAbort]).map (jobPair c4run.dirPath)) :=
  ⟨rfl, rfl, rfl, rfl, by decide,
    claim_C4 c4run [exA] [exC] exAbort ⟨1, 0⟩ rfl rfl rfl rfl (by decide)⟩

/-- Claim C7 counterexample: a run that discovers one file and then aborts on
the missing executable prints no summary, because the `FileNotFoundError`
branch returns before the summary block is reached. -/
theorem claim_C7_counterexample :
    abortRun.aseFiles.length = 1 ∧
    (convert_ase_to_png abortRun).fatalAbort = true ∧
    (convert_ase_to_png abortRun).summaryPrinted = false := by decide

/-- Claim C7 (amended): in every run that discovers at least one file, the
summary of succeeded and failed counts is emitted exactly when the run did not
abort on the missing executable; the missing-executable abort skips the
summary. -/
theorem claim_C7 (st : DirState) (hE : st.pathExists = true) (hD : st.isDir = true)
    (hne : st.aseFiles.isEmpty = false) :
    ((convert_ase_to_png st).fatalAbort = false →
      (convert_ase_to_png st).summaryPrinted = true) ∧
    ((convert_ase_to_png st).fatalAbort = true →
      (convert_ase_to_png st).summaryPrinted = false) := by
  rw [convert_eq_runLoop st hE hD hne]
  have h := runLoop_summary_eq st.dirPath st.aseFiles ⟨0, 0⟩
  constructor <;> intro hab <;> simp_all

theorem claim_C7_witness :
    c3run.pathExists = true ∧ c3run.isDir = true ∧ c3run.aseFiles.isEmpty = false ∧
    (((convert_ase_to_png c3run).fatalAbort = false →
        (convert_ase_to_png c3run).summaryPrinted = true) ∧
      ((convert_ase_to_png c3run).fatalAbort = true →
        (convert_ase_to_png c3run).summaryPrinted = false)) :=
  ⟨rfl, rfl, rfl, claim_C7 c3run rfl rfl rfl⟩

/-- Claim C8: at every loop boundary of every run, both counters are
non-negative and the number of files processed so far equals
succeeded + failed: each processed file increments exactly one counter. -/
theorem claim_C8 (st : DirState) (k : Nat) (s : LoopState)
    (hE : st.pathExists = true) (hD : st.isDir = true)
    (h : runStates ⟨0, 0⟩ (st.aseFiles.take k) = some s) :
    0 ≤ s.success_count ∧ 0 ≤ s.error_count ∧
      s.success_count + s.error_count = ((st.aseFiles.take k).length : Int) := by
  have hc := runStates_counts (st.aseFiles.take k) ⟨0, 0⟩ s h
  simp only [LoopState.mk] at hc
  refine ⟨?_, ?_, ?_⟩ <;> omega

theorem claim_C8_witness :
    c3run.pathExists = true ∧ c3run.isDir = true ∧
    runStates ⟨0, 0⟩ (c3run.aseFiles.take 2) = some ⟨1, 1⟩ ∧
    (0 ≤ (1 : Int) ∧ 0 ≤ (1 : Int) ∧
      (1 : Int) + 1 = ((c3run.aseFiles.take 2).length : Int)) :=
  ⟨rfl, rfl, by decide, claim_C8 c3run 2 ⟨1, 1⟩ rfl rfl (by decide)⟩

/-- Claim C9: every invoked job's destination is a sibling of its source: the
same parent directory, and a final component equal to the source's with the
`.ase` extension replaced by `.png`. -/
theorem claim_C9 (st : DirState) (p : PyPath × PyPath) (stem : List Char)
    (hp : p ∈ (convert_ase_to_png st).invoked)
    (hname : p.1.name = stem ++ aseExt) (hs : stem ≠ []) :
    p.2.parent = p.1.parent ∧ p.2.name = stem ++ pngExt := by
  by_cases hE : st.pathExists = false
  · simp [convert_ase_to_png, hE] at hp
  · by_cases hD : st.isDir = false
    · simp [convert_ase_to_png, hE, hD] at hp
    · by_cases hne : st.aseFiles.isEmpty
      · simp [convert_ase_to_png, hE, hD, hne] at hp
      · rw [convert_eq_runLoop st (by simpa using hE) (by simpa using hD)
          (by simpa using hne)] at hp
        simp only [] at hp
        obtain ⟨f, hf, hpf⟩ := runLoop_invoked_mem st.dirPath st.aseFiles ⟨0, 0⟩ p hp
        subst hpf
        simp only [jobPair, withSuffix] at hname ⊢
        rw [hname]
        exact ⟨by trivial, withSuffixName_ase stem hs⟩

theorem claim_C9_witness :
    jobPair c9run.dirPath exA ∈ (convert_ase_to_png c9run).invoked ∧
    (jobPair c9run.dirPath exA).1.name = ['a'] ++ aseExt ∧
    (['a'] : List Char) ≠ [] ∧
    ((jobPair c9run.dirPath exA).2.parent = (jobPair c9run.dirPath exA).1.parent ∧
      (jobPair c9run.dirPath exA).2.name = ['a'] ++ pngExt) :=
  ⟨by decide, by decide, by decide,
    claim_C9 c9run (jobPair c9run.dirPath exA) ['a'] (by decide) (by decide) (by decide)⟩

end MakePngs
